import Mathlib

/-!
Shallow embedding of the `gear-microkit` crate's request-metadata accessor
layer (`src/crates/microkit/src/request_ext.rs`) and its client-side tracing
middleware (`src/crates/microkit/src/middlewares/client_tracing.rs`).

Strings carried in headers are Lean `String`s; the splitting and integer
parsing helpers mirror the semantics of Rust's `str::split`, `str::split_once`
and `FromStr` for `u64` / `i64` / `i32`, operating on the underlying
`List Char`.
-/

set_option autoImplicit false

namespace Microkit

/-- Accumulator-style worker for `rustSplit`: mirrors Rust's `str::split(sep)`
where `acc` holds the current field reversed. An empty input yields one empty
field, exactly as in Rust. -/
def splitAux (sep : Char) : List Char → List Char → List (List Char)
  | [], acc => [acc.reverse]
  | c :: rest, acc =>
    if c = sep then acc.reverse :: splitAux sep rest []
    else splitAux sep rest (c :: acc)

/-- Rust `str::split(sep)` on the character list of a string: `n` separators
produce `n + 1` fields, empty fields preserved, `""` gives `[""]`. -/
def rustSplit (sep : Char) (s : List Char) : List (List Char) :=
  splitAux sep s []

/-- Rust `str::split_once(sep)`: splits around the first occurrence of `sep`,
returning `none` when `sep` does not occur. -/
def splitOnce (sep : Char) : List Char → Option (List Char × List Char)
  | [] => none
  | c :: rest =>
    if c = sep then some ([], rest)
    else (splitOnce sep rest).map (fun p => (c :: p.1, p.2))

/-- Numeric value of an ASCII digit character. -/
def digitVal (c : Char) : Nat :=
  c.toNat - '0'.toNat

/-- Fold a digit string into its value; fails on any non-digit character. -/
def digitsValAux : List Char → Nat → Option Nat
  | [], acc => some acc
  | c :: rest, acc =>
    if c.isDigit then digitsValAux rest (acc * 10 + digitVal c) else none

/-- Value of a non-empty all-digit character list; `none` if empty or if any
character is not an ASCII digit. -/
def digitsVal : List Char → Option Nat
  | [] => none
  | cs => digitsValAux cs 0

/-- Rust `u64::from_str`: an optional leading `'+'` (never `'-'`), then one or
more ASCII digits, value below `2 ^ 64`; anything else fails. -/
def parseU64 (s : String) : Option Nat :=
  let body :=
    match s.data with
    | '+' :: rest => rest
    | cs => cs
  match digitsVal body with
  | some n => if n < 2 ^ 64 then some n else none
  | none => none

/-- Rust signed-integer `from_str` with magnitude bound `bound = 2 ^ (w - 1)`:
optional sign, digits, and the value must lie in `[-bound, bound - 1]`. -/
def parseSigned (bound : Nat) (s : String) : Option Int :=
  match s.data with
  | '-' :: rest =>
    match digitsVal rest with
    | some n => if n ≤ bound then some (-(n : Int)) else none
    | none => none
  | '+' :: rest =>
    match digitsVal rest with
    | some n => if n < bound then some ((n : Int)) else none
    | none => none
  | cs =>
    match digitsVal cs with
    | some n => if n < bound then some ((n : Int)) else none
    | none => none

/-- Rust `i64::from_str`. -/
def parseI64 (s : String) : Option Int :=
  parseSigned (2 ^ 63) s

/-- Rust `i32::from_str`. -/
def parseI32 (s : String) : Option Int :=
  parseSigned (2 ^ 31) s

/-- The gRPC request metadata map (`poem_grpc::Metadata`): a read-only lookup
from header name to an optional single string value. -/
structure Metadata where
  get : String → Option String

/-- A gRPC request as seen by `RequestExt`: only its metadata is consulted. -/
structure Request where
  metadata : Metadata

/-- `BrokerType` from `request_ext.rs`: `#[repr(i64)]` with discriminants
`Unknown = 0`, `Trader = 1`, `Broker = 2`. -/
inductive BrokerType where
  | Unknown
  | Trader
  | Broker
deriving DecidableEq

/-- `num_enum::FromPrimitive` conversion for `BrokerType` with
`#[num_enum(default)]` on `Unknown`: total on `i64`. -/
def BrokerType.fromI64 (n : Int) : BrokerType :=
  if n = 0 then .Unknown
  else if n = 1 then .Trader
  else if n = 2 then .Broker
  else .Unknown

/-- `app_id`: string accessor for the `app-id` header. -/
def app_id (req : Request) : Option String := req.metadata.get "app-id"

/-- `platform`: string accessor for the `x-platform` header. -/
def platform (req : Request) : Option String := req.metadata.get "x-platform"

/-- `accept_language`: string accessor for the `accept-language` header. -/
def accept_language (req : Request) : Option String := req.metadata.get "accept-language"

/-- `prefer_language`: string accessor for the `x-prefer-language` header. -/
def prefer_language (req : Request) : Option String := req.metadata.get "x-prefer-language"

/-- `cluster`: string accessor for the `x-cluster` header. -/
def cluster (req : Request) : Option String := req.metadata.get "x-cluster"

/-- `from_cluster`: string accessor for the `x-from-cluster` header. -/
def from_cluster (req : Request) : Option String := req.metadata.get "x-from-cluster"

/-- `ip_region`: string accessor for the `ip-region` header. -/
def ip_region (req : Request) : Option String := req.metadata.get "ip-region"

/-- `user_region`: string accessor for the `user-region` header. -/
def user_region (req : Request) : Option String := req.metadata.get "user-region"

/-- `user_agent`: string accessor for the `x-user-agent` header. -/
def user_agent (req : Request) : Option String := req.metadata.get "x-user-agent"

/-- `application_version`: string accessor for the `x-application-version` header. -/
def application_version (req : Request) : Option String := req.metadata.get "x-application-version"

/-- `application_build`: string accessor for the `x-application-build` header. -/
def application_build (req : Request) : Option String := req.metadata.get "x-application-build"

/-- `bundle_id`: string accessor for the `x-bundle-id` header. -/
def bundle_id (req : Request) : Option String := req.metadata.get "x-bundle-id"

/-- `device_id`: string accessor for the `x-device-id` header. -/
def device_id (req : Request) : Option String := req.metadata.get "x-device-id"

/-- `device_name`: string accessor for the `x-device-name` header. -/
def device_name (req : Request) : Option String := req.metadata.get "x-device-name"

/-- `device_model`: string accessor for the `x-device-model` header. -/
def device_model (req : Request) : Option String := req.metadata.get "x-device-model"

/-- `email`: string accessor for the `x-email` header. -/
def email (req : Request) : Option String := req.metadata.get "x-email"

/-- `account_channel`: string accessor for the `account-channel` header. -/
def account_channel (req : Request) : Option String := req.metadata.get "account-channel"

/-- `real_ip`: string accessor for the `x-real-ip` header. -/
def real_ip (req : Request) : Option String := req.metadata.get "x-real-ip"

/-- `member_id`: the `member-id` header parsed as `u64`. -/
def member_id (req : Request) : Option Nat :=
  (req.metadata.get "member-id").bind parseU64

/-- `admin_id`: the `admin-id` header parsed as `u64`. -/
def admin_id (req : Request) : Option Nat :=
  (req.metadata.get "admin-id").bind parseU64

/-- `organization_id`: the `org-id` header parsed as `u64`. -/
def organization_id (req : Request) : Option Nat :=
  (req.metadata.get "org-id").bind parseU64

/-- `target_organization_id`: the `x-target-org-id` header parsed as `u64`. -/
def target_organization_id (req : Request) : Option Nat :=
  (req.metadata.get "x-target-org-id").bind parseU64

/-- `target_aaid`: the `target-aaid` header parsed as `u64`. -/
def target_aaid (req : Request) : Option Nat :=
  (req.metadata.get "target-aaid").bind parseU64

/-- `base_level`: the `base-level` header parsed as `i32`. -/
def base_level (req : Request) : Option Int :=
  (req.metadata.get "base-level").bind parseI32

/-- `op_member_id`: the `op-member-id` header parsed as `u64`, falling back to
`member_id` when absent or unparsable (`.or_else(|| self.member_id())`). -/
def op_member_id (req : Request) : Option Nat :=
  ((req.metadata.get "op-member-id").bind parseU64).orElse (fun _ => member_id req)

/-- `broker_type`: the `broker-type` header parsed as `i64` then converted via
the total `BrokerType::from` mapping. -/
def broker_type (req : Request) : Option BrokerType :=
  ((req.metadata.get "broker-type").bind parseI64).map BrokerType.fromI64

/-- `HashMap::insert` on the association-list model of the market-levels map:
replaces the value at an existing key, otherwise adds the binding. -/
def insertAssoc (m : List (List Char × List (List Char))) (k : List Char)
    (v : List (List Char)) : List (List Char × List (List Char)) :=
  match m with
  | [] => [(k, v)]
  | (k', v') :: rest =>
    if k' = k then (k, v) :: rest else (k', v') :: insertAssoc rest k v

/-- Body of the `for kv in parts.split(';')` loop in `market_levels`:
`if let Some((key, values)) = kv.split_once(';') { levels.insert(key, values.split(',').collect()) }`. -/
def marketStep (levels : List (List Char × List (List Char))) (kv : List Char) :
    List (List Char × List (List Char)) :=
  match splitOnce ';' kv with
  | some (key, values) => insertAssoc levels key (rustSplit ',' values)
  | none => levels

/-- `market_levels`: splits the `market-levels` header on `';'` and runs the
loop body over the pieces, starting from the empty map. -/
def market_levels (req : Request) : List (List Char × List (List Char)) :=
  match req.metadata.get "market-levels" with
  | some parts => (rustSplit ';' parts.data).foldl marketStep []
  | none => []

/-- `features`: the `x-features` header split on `','`, or the empty list when
the header is absent (`.map(|v| v.split(',').collect()).unwrap_or_default()`). -/
def features (req : Request) : List String :=
  match req.metadata.get "x-features" with
  | some value => (rustSplit ',' value.data).map String.mk
  | none => []

/-! ### Client tracing middleware (`client_tracing.rs`) -/

/-- Span kind tag from the tracing SDK; the middleware only ever uses
`client`. -/
inductive SpanKind where
  | client
  | server
deriving DecidableEq

/-- Observable data of a span created by the middleware: its name, kind and
attribute list (`url.full` is `opentelemetry_semantic_conventions::trace::URL_FULL`). -/
structure SpanData where
  name : String
  kind : SpanKind
  attrs : List (String × String)
deriving DecidableEq

/-- A tracing context: optionally carries an active span, plus opaque baggage
entries owned by whoever built the surrounding context. -/
structure Context where
  span : Option SpanData
  baggage : List (String × String)
deriving DecidableEq

/-- `Context::current_with_span`: the surrounding context with the given span
attached as current. -/
def contextWithSpan (cx : Context) (s : SpanData) : Context :=
  { cx with span := some s }

/-- The tracer handle placed in the request data bag by the server bootstrap
(`opentelemetry_sdk::trace::Tracer`); opaque to the middleware. -/
structure Tracer where
  name : String
deriving DecidableEq

/-- A `poem::Request` as seen by the client tracing middleware: its header
map, its URI path, and the typed data-bag slot for a `Tracer`. -/
structure PoemRequest where
  headers : List (String × String)
  path : String
  tracerData : Option Tracer
deriving DecidableEq

/-- Whether a header with key `k` is present in the header map. -/
def containsKey (hs : List (String × String)) (k : String) : Bool :=
  hs.any (fun e => e.1 = k)

/-- `HeaderMap::insert` as performed by `opentelemetry_http::HeaderInjector`:
all previous values for the key are replaced by the new one. -/
def insertHeader (hs : List (String × String)) (k v : String) :
    List (String × String) :=
  hs.filter (fun e => e.1 ≠ k) ++ [(k, v)]

/-- `propagator.inject_context(&cx, &mut HeaderInjector(req.headers_mut()))`:
the propagator sets each of its chosen key/value pairs into the header map. -/
def injectPairs (hs : List (String × String)) (ps : List (String × String)) :
    List (String × String) :=
  ps.foldl (fun acc p => insertHeader acc p.1 p.2) hs

/-- The process-wide configured text-map propagator, modelled by the pairs it
chooses to set for a given context (`global::get_text_map_propagator`). -/
def Propagator : Type :=
  Context → List (String × String)

/-- Span data built by `tracer.span_builder("grpc request")
.with_kind(SpanKind::Client).start(tracer)` followed by
`span.set_attribute(KeyValue::new(URL_FULL, req.uri().path()))`. -/
def clientSpanFor (req : PoemRequest) : SpanData :=
  { name := "grpc request", kind := .client, attrs := [("url.full", req.path)] }

/-- `ClientTracingEndpoint::call`: when a `Tracer` is in the request data,
build the client span, attach it to the current context, inject that context
into the outgoing headers via the global propagator, and run the inner
endpoint under that context; otherwise forward the request untouched. The
second component records the spans this call created. -/
def clientTracingCall {R : Type} (prop : Propagator)
    (inner : PoemRequest → Context → R) (cx0 : Context) (req : PoemRequest) :
    R × List SpanData :=
  match req.tracerData with
  | some _tracer =>
    let span : SpanData :=
      { name := "grpc request", kind := .client, attrs := [("url.full", req.path)] }
    let cx := contextWithSpan cx0 span
    let req' := { req with headers := injectPairs req.headers (prop cx) }
    (inner req' cx, [span])
  | none => (inner req cx0, [])

/-! ### Concrete requests used as witnesses and counterexamples -/

/-- Metadata holding exactly the given bindings. -/
def mkMeta (entries : List (String × String)) : Metadata :=
  ⟨fun k => (entries.find? (fun e => e.1 = k)).map (·.2)⟩

/-- Request with `op-member-id: 7` and `member-id: 9`. -/
def reqOp7Member9 : Request :=
  ⟨mkMeta [("op-member-id", "7"), ("member-id", "9")]⟩

/-- Request with only `member-id: 9`. -/
def reqMember9 : Request :=
  ⟨mkMeta [("member-id", "9")]⟩

/-- Request with no metadata at all. -/
def reqEmpty : Request :=
  ⟨mkMeta []⟩

/-- Request with `broker-type: 99`. -/
def reqBroker99 : Request :=
  ⟨mkMeta [("broker-type", "99")]⟩

/-- Request with malformed numeric headers. -/
def reqMalformed : Request :=
  ⟨mkMeta [("member-id", "abc"), ("admin-id", "12abc"), ("org-id", "12 "),
           ("x-target-org-id", ""), ("target-aaid", "-3"), ("base-level", "3.5")]⟩

/-- Request with `x-features: "dark_mode,beta_ui"`. -/
def reqFeatures : Request :=
  ⟨mkMeta [("x-features", "dark_mode,beta_ui")]⟩

/-- Request whose `x-features` header is present but empty. -/
def reqFeaturesEmpty : Request :=
  ⟨mkMeta [("x-features", "")]⟩

/-- Request with a well-formed `market-levels` header per the documented
grammar: two groups with two and one levels. -/
def reqMarket : Request :=
  ⟨mkMeta [("market-levels", "hk:1,2;us:3")]⟩

/-- A concrete poem request with one pre-existing header, no tracer. -/
def poemReqNoTracer : PoemRequest :=
  ⟨[("x-app", "gear")], "/svc/Method", none⟩

/-- The same poem request with a tracer handle in its data bag. -/
def poemReqTraced : PoemRequest :=
  ⟨[("x-app", "gear")], "/svc/Method", some ⟨"svc"⟩⟩

/-- A concrete propagator that sets a `traceparent`-style header. -/
def constPropagator : Propagator :=
  fun _ => [("traceparent", "00-abc-def-01")]

/-- A concrete inner endpoint observing its request and context. -/
def probeInner : PoemRequest → Context → (PoemRequest × Context) :=
  fun r c => (r, c)

/-- A concrete ambient context with no active span. -/
def rootContext : Context :=
  ⟨none, [("tenant", "a")]⟩

/-- Request whose `market-levels` header is a string of bare `';'`-separated
pieces. -/
def reqMarketGarbage : Request :=
  ⟨mkMeta [("market-levels", "a;b;c")]⟩

/-- Request with an empty `app-id` header and nothing else. -/
def reqAppEmpty : Request :=
  ⟨mkMeta [("app-id", "")]⟩

/-! ### Helper lemmas -/

/-- Fields produced by `splitAux` never contain the separator, provided the
accumulated partial field does not. -/
theorem splitAux_not_mem_sep (sep : Char) :
    ∀ (s acc : List Char), sep ∉ acc →
      ∀ x ∈ splitAux sep s acc, sep ∉ x := by
  intro s
  induction s with
  | nil =>
    intro acc hacc x hx
    simp only [splitAux, List.mem_singleton] at hx
    subst hx
    simpa using hacc
  | cons c rest ih =>
    intro acc hacc x hx
    by_cases hc : c = sep
    · simp only [splitAux, if_pos hc, List.mem_cons] at hx
      rcases hx with hx | hx
      · subst hx; simpa using hacc
      · exact ih [] (by simp) x hx
    · simp only [splitAux, if_neg hc] at hx
      refine ih (c :: acc) ?_ x hx
      intro hmem
      rcases List.mem_cons.mp hmem with h | h
      · exact hc h.symm
      · exact hacc h

/-- Fields of `rustSplit sep s` never contain `sep`. -/
theorem rustSplit_not_mem_sep (sep : Char) (s : List Char) :
    ∀ x ∈ rustSplit sep s, sep ∉ x :=
  splitAux_not_mem_sep sep s [] (by simp)

/-- `splitOnce` fails exactly when looking for a separator that is absent. -/
theorem splitOnce_eq_none_of_not_mem (sep : Char) :
    ∀ (x : List Char), sep ∉ x → splitOnce sep x = none := by
  intro x
  induction x with
  | nil => intro; rfl
  | cons c rest ih =>
    intro h
    have hc : ¬ c = sep := fun e => h (by simp [e])
    have hrest : sep ∉ rest := fun e => h (List.mem_cons_of_mem _ e)
    simp only [splitOnce, if_neg hc, ih hrest, Option.map_none']

/-- Folding the `market_levels` loop body over pieces in which the inner
`split_once(';')` always fails leaves the map unchanged. -/
theorem foldl_marketStep_id :
    ∀ (l : List (List Char)) (init : List (List Char × List (List Char))),
      (∀ x ∈ l, splitOnce ';' x = none) → l.foldl marketStep init = init := by
  intro l
  induction l with
  | nil => intro init _; rfl
  | cons x rest ih =>
    intro init h
    have hx : marketStep init x = init := by
      unfold marketStep
      rw [h x (List.mem_cons_self x rest)]
    rw [List.foldl_cons, hx]
    exact ih init (fun y hy => h y (List.mem_cons_of_mem x hy))

/-- Header-key preservation of a single `HeaderMap::insert`: inserting never
makes an existing key disappear. -/
theorem containsKey_insertHeader (hs : List (String × String)) (k k' v : String)
    (hk : containsKey hs k = true) : containsKey (insertHeader hs k' v) k = true := by
  unfold containsKey at hk ⊢
  unfold insertHeader
  rcases List.any_eq_true.mp hk with ⟨e, he, hek⟩
  have hek' : e.1 = k := of_decide_eq_true hek
  rw [List.any_append]
  by_cases hkk : k = k'
  · have : List.any [(k', v)] (fun e => decide (e.1 = k)) = true := by
      simp [hkk]
    rw [this, Bool.or_true]
  · have : List.any (hs.filter (fun e => e.1 ≠ k')) (fun e => decide (e.1 = k)) = true := by
      refine List.any_eq_true.mpr ⟨e, ?_, hek⟩
      refine List.mem_filter.mpr ⟨he, ?_⟩
      simp [hek', hkk]
    rw [this, Bool.true_or]

/-- Header-key preservation of a whole propagator injection. -/
theorem containsKey_injectPairs (ps : List (String × String)) :
    ∀ (hs : List (String × String)) (k : String), containsKey hs k = true →
      containsKey (injectPairs hs ps) k = true := by
  induction ps with
  | nil => intro hs k hk; exact hk
  | cons p rest ih =>
    intro hs k hk
    exact ih (insertHeader hs p.1 p.2) k (containsKey_insertHeader hs k p.1 p.2 hk)

/-! ### Claim theorems -/

/-- C10: for every request and every value of the `market-levels` header,
`market_levels` returns the empty map: the loop splits the value on `';'` and
then looks for another `';'` inside each piece, which never succeeds, so no
entry is ever inserted. -/
theorem market_levels_always_empty (req : Request) : market_levels req = [] := by
  unfold market_levels
  cases h : req.metadata.get "market-levels" with
  | none => rfl
  | some parts =>
    exact foldl_marketStep_id (rustSplit ';' parts.data) []
      (fun x hx => splitOnce_eq_none_of_not_mem ';' x
        (rustSplit_not_mem_sep ';' parts.data x hx))

/-- Witness for C10 at a concrete header value. -/
theorem market_levels_always_empty_witness :
    market_levels reqMarketGarbage = [] :=
  market_levels_always_empty reqMarketGarbage

/-- C1: evaluating `market_levels` at the documented well-formed header
`market-levels: "hk:1,2;us:3"` (two groups with two and one levels) yields the
empty map instead of the mapping the claim and the function's own doc comment
describe. -/
theorem market_levels_at_well_formed_header :
    reqMarket.metadata.get "market-levels" = some "hk:1,2;us:3" ∧
    market_levels reqMarket = [] := by
  exact ⟨by decide, by decide⟩

/-- C6 counterexample: with `x-features` present but equal to the empty
string, `features` returns the one-element list `[""]`, not the empty list
the claim requires for an "absent or empty" header. -/
theorem features_empty_header_counterexample :
    reqFeaturesEmpty.metadata.get "x-features" = some "" ∧
    features reqFeaturesEmpty = [""] ∧
    features reqFeaturesEmpty ≠ [] := by
  exact ⟨by decide, by decide, by decide⟩

/-- C6 (amended): an absent `x-features` header yields the empty list; a
present header — the empty string included — yields exactly the comma-split
of its value, in order, with no deduplication and no trimming. -/
theorem features_split_spec (req : Request) :
    (req.metadata.get "x-features" = none → features req = []) ∧
    (∀ v, req.metadata.get "x-features" = some v →
      features req = (rustSplit ',' v.data).map String.mk) := by
  constructor
  · intro h
    unfold features
    rw [h]
  · intro v h
    unfold features
    rw [h]

/-- Witness for C6's amended theorem at the spec's concrete example. -/
theorem features_split_spec_witness :
    reqFeatures.metadata.get "x-features" = some "dark_mode,beta_ui" ∧
    features reqFeatures = ["dark_mode", "beta_ui"] := by
  refine ⟨by decide, ?_⟩
  rw [(features_split_spec reqFeatures).2 "dark_mode,beta_ui" (by decide)]
  decide

/-- C5: every scalar string accessor is exactly the lookup of its header:
`none` iff the header is absent, and a present header (the empty string
included) yields `some` of its exact value. -/
theorem string_accessors_spec (req : Request) :
    app_id req = req.metadata.get "app-id" ∧
    platform req = req.metadata.get "x-platform" ∧
    accept_language req = req.metadata.get "accept-language" ∧
    prefer_language req = req.metadata.get "x-prefer-language" ∧
    cluster req = req.metadata.get "x-cluster" ∧
    from_cluster req = req.metadata.get "x-from-cluster" ∧
    ip_region req = req.metadata.get "ip-region" ∧
    user_region req = req.metadata.get "user-region" ∧
    user_agent req = req.metadata.get "x-user-agent" ∧
    application_version req = req.metadata.get "x-application-version" ∧
    application_build req = req.metadata.get "x-application-build" ∧
    bundle_id req = req.metadata.get "x-bundle-id" ∧
    device_id req = req.metadata.get "x-device-id" ∧
    device_name req = req.metadata.get "x-device-name" ∧
    device_model req = req.metadata.get "x-device-model" ∧
    email req = req.metadata.get "x-email" ∧
    account_channel req = req.metadata.get "account-channel" ∧
    real_ip req = req.metadata.get "x-real-ip" := by
  exact ⟨rfl, rfl, rfl, rfl, rfl, rfl, rfl, rfl, rfl, rfl, rfl, rfl, rfl, rfl,
    rfl, rfl, rfl, rfl⟩

/-- Witness for C5 at a concrete request: a present (empty) header comes back
verbatim and an absent one gives `none`. -/
theorem string_accessors_spec_witness :
    app_id reqAppEmpty = some "" ∧ platform reqAppEmpty = none := by
  have h := string_accessors_spec reqAppEmpty
  refine ⟨h.1.trans (by decide), h.2.1.trans (by decide)⟩

/-- C4: every numeric scalar accessor returns `none` when its header is
absent and equally when the present value fails to parse as the exact target
type; trailing garbage, embedded spaces, signs on unsigned fields and
non-integer syntax are all rejected outright. -/
theorem numeric_accessors_reject (req : Request) :
    ((req.metadata.get "member-id" = none → member_id req = none) ∧
      ∀ v, req.metadata.get "member-id" = some v → parseU64 v = none →
        member_id req = none) ∧
    ((req.metadata.get "admin-id" = none → admin_id req = none) ∧
      ∀ v, req.metadata.get "admin-id" = some v → parseU64 v = none →
        admin_id req = none) ∧
    ((req.metadata.get "org-id" = none → organization_id req = none) ∧
      ∀ v, req.metadata.get "org-id" = some v → parseU64 v = none →
        organization_id req = none) ∧
    ((req.metadata.get "x-target-org-id" = none → target_organization_id req = none) ∧
      ∀ v, req.metadata.get "x-target-org-id" = some v → parseU64 v = none →
        target_organization_id req = none) ∧
    ((req.metadata.get "target-aaid" = none → target_aaid req = none) ∧
      ∀ v, req.metadata.get "target-aaid" = some v → parseU64 v = none →
        target_aaid req = none) ∧
    ((req.metadata.get "base-level" = none → base_level req = none) ∧
      ∀ v, req.metadata.get "base-level" = some v → parseI32 v = none →
        base_level req = none) ∧
    (parseU64 "abc" = none ∧ parseU64 "12abc" = none ∧ parseU64 "12 " = none ∧
      parseU64 "-3" = none ∧ parseU64 "" = none ∧ parseI32 "3.5" = none) := by
  refine ⟨⟨?_, ?_⟩, ⟨?_, ?_⟩, ⟨?_, ?_⟩, ⟨?_, ?_⟩, ⟨?_, ?_⟩, ⟨?_, ?_⟩, ?_⟩
  case _ => intro h; unfold member_id; rw [h]; rfl
  case _ => intro v hv hp; unfold member_id; rw [hv]; exact hp
  case _ => intro h; unfold admin_id; rw [h]; rfl
  case _ => intro v hv hp; unfold admin_id; rw [hv]; exact hp
  case _ => intro h; unfold organization_id; rw [h]; rfl
  case _ => intro v hv hp; unfold organization_id; rw [hv]; exact hp
  case _ => intro h; unfold target_organization_id; rw [h]; rfl
  case _ => intro v hv hp; unfold target_organization_id; rw [hv]; exact hp
  case _ => intro h; unfold target_aaid; rw [h]; rfl
  case _ => intro v hv hp; unfold target_aaid; rw [hv]; exact hp
  case _ => intro h; unfold base_level; rw [h]; rfl
  case _ => intro v hv hp; unfold base_level; rw [hv]; exact hp
  case _ => exact ⟨by decide, by decide, by decide, by decide, by decide, by decide⟩

/-- Witness for C4: a request whose six numeric headers are all malformed,
plus a request with no headers, all yield `none`. -/
theorem numeric_accessors_reject_witness :
    member_id reqMalformed = none ∧ admin_id reqMalformed = none ∧
    organization_id reqMalformed = none ∧
    target_organization_id reqMalformed = none ∧
    target_aaid reqMalformed = none ∧ base_level reqMalformed = none ∧
    member_id reqEmpty = none := by
  have h := numeric_accessors_reject reqMalformed
  have h0 := numeric_accessors_reject reqEmpty
  exact ⟨h.1.2 "abc" (by decide) (by decide),
    h.2.1.2 "12abc" (by decide) (by decide),
    h.2.2.1.2 "12 " (by decide) (by decide),
    h.2.2.2.1.2 "" (by decide) (by decide),
    h.2.2.2.2.1.2 "-3" (by decide) (by decide),
    h.2.2.2.2.2.1.2 "3.5" (by decide) (by decide),
    h0.1.1 (by decide)⟩

/-- C2: `op_member_id` takes the parsed `op-member-id` header when it parses
as `u64`, and otherwise — header absent or unparsable — returns exactly
`member_id`'s result. -/
theorem op_member_id_precedence (req : Request) :
    (∀ v n, req.metadata.get "op-member-id" = some v → parseU64 v = some n →
      op_member_id req = some n) ∧
    (req.metadata.get "op-member-id" = none →
      op_member_id req = member_id req) ∧
    (∀ v, req.metadata.get "op-member-id" = some v → parseU64 v = none →
      op_member_id req = member_id req) := by
  refine ⟨?_, ?_, ?_⟩
  · intro v n hv hn
    unfold op_member_id
    rw [hv]
    show (parseU64 v).orElse (fun _ => member_id req) = some n
    rw [hn]
    rfl
  · intro h
    unfold op_member_id
    rw [h]
    rfl
  · intro v hv hp
    unfold op_member_id
    rw [hv]
    show (parseU64 v).orElse (fun _ => member_id req) = member_id req
    rw [hp]
    rfl

/-- Witness for C2 at the spec's three concrete scenarios. -/
theorem op_member_id_precedence_witness :
    op_member_id reqOp7Member9 = some 7 ∧
    op_member_id reqMember9 = some 9 ∧
    op_member_id reqEmpty = none := by
  refine ⟨(op_member_id_precedence reqOp7Member9).1 "7" 7 (by decide) (by decide),
    ?_, ?_⟩
  · rw [(op_member_id_precedence reqMember9).2.1 (by decide)]
    decide
  · rw [(op_member_id_precedence reqEmpty).2.1 (by decide)]
    decide

/-- C3: `broker_type` is `none` exactly when the `broker-type` header is
absent or not a parseable `i64`; any parsed code is converted by the total
mapping `0 ↦ Unknown`, `1 ↦ Trader`, `2 ↦ Broker`, everything else
`Unknown` — never `none`. -/
theorem broker_type_total (req : Request) :
    (broker_type req = none ↔
      (req.metadata.get "broker-type" = none ∨
        ∃ v, req.metadata.get "broker-type" = some v ∧ parseI64 v = none)) ∧
    (∀ v c, req.metadata.get "broker-type" = some v → parseI64 v = some c →
      broker_type req = some (BrokerType.fromI64 c)) ∧
    (∀ c : Int, c ≠ 0 → c ≠ 1 → c ≠ 2 →
      BrokerType.fromI64 c = BrokerType.Unknown) ∧
    BrokerType.fromI64 0 = BrokerType.Unknown ∧
    BrokerType.fromI64 1 = BrokerType.Trader ∧
    BrokerType.fromI64 2 = BrokerType.Broker := by
  refine ⟨?_, ?_, ?_, by decide, by decide, by decide⟩
  · unfold broker_type
    cases h : req.metadata.get "broker-type" with
    | none => simp [h]
    | some v => simp [h, Option.map_eq_none']
  · intro v c hv hc
    unfold broker_type
    rw [hv]
    show (parseI64 v).map BrokerType.fromI64 = some (BrokerType.fromI64 c)
    rw [hc]
    rfl
  · intro c h0 h1 h2
    unfold BrokerType.fromI64
    rw [if_neg h0, if_neg h1, if_neg h2]

/-- Witness for C3: the unmapped code `99` yields `Unknown`, and an absent
header yields `none`. -/
theorem broker_type_total_witness :
    broker_type reqBroker99 = some BrokerType.Unknown ∧
    broker_type reqEmpty = none := by
  constructor
  · rw [(broker_type_total reqBroker99).2.1 "99" 99 (by decide) (by decide)]
    decide
  · exact (broker_type_total reqEmpty).1.mpr (Or.inl (by decide))

/-- C7: with no tracer handle in the request data, the client tracing
middleware forwards the very same request to the inner endpoint under the
ambient context, creates no span, and returns exactly the inner result. -/
theorem clientTracing_passthrough {R : Type} (prop : Propagator)
    (inner : PoemRequest → Context → R) (cx0 : Context) (req : PoemRequest)
    (h : req.tracerData = none) :
    clientTracingCall prop inner cx0 req = (inner req cx0, []) := by
  unfold clientTracingCall
  rw [h]

/-- Witness for C7 at a concrete request, propagator and inner endpoint. -/
theorem clientTracing_passthrough_witness :
    poemReqNoTracer.tracerData = none ∧
    clientTracingCall constPropagator probeInner rootContext poemReqNoTracer =
      (probeInner poemReqNoTracer rootContext, []) :=
  ⟨rfl, clientTracing_passthrough constPropagator probeInner rootContext
    poemReqNoTracer rfl⟩

/-- C8: with a tracer handle present, the middleware creates exactly one
span, named `"grpc request"`, of client kind, carrying the single attribute
`url.full ↦ request path`; it injects the propagator's serialization of the
context wrapping that span into the outgoing headers — preserving every
pre-existing header key — and invokes the inner endpoint on the mutated
request under that context. -/
theorem clientTracing_traced {R : Type} (prop : Propagator)
    (inner : PoemRequest → Context → R) (cx0 : Context) (req : PoemRequest)
    (tr : Tracer) (h : req.tracerData = some tr) :
    (clientTracingCall prop inner cx0 req).2 = [clientSpanFor req] ∧
    clientSpanFor req =
      { name := "grpc request", kind := SpanKind.client,
        attrs := [("url.full", req.path)] } ∧
    (clientTracingCall prop inner cx0 req).1 =
      inner
        { req with
            headers :=
              injectPairs req.headers
                (prop (contextWithSpan cx0 (clientSpanFor req))) }
        (contextWithSpan cx0 (clientSpanFor req)) ∧
    (∀ k, containsKey req.headers k = true →
      containsKey (injectPairs req.headers
        (prop (contextWithSpan cx0 (clientSpanFor req)))) k = true) := by
  refine ⟨?_, rfl, ?_, ?_⟩
  · unfold clientTracingCall
    rw [h]
    rfl
  · unfold clientTracingCall
    rw [h]
    rfl
  · intro k hk
    exact containsKey_injectPairs _ req.headers k hk

/-- Witness for C8 at a concrete traced request: one client span is created
and the pre-existing `x-app` header key survives the injection. -/
theorem clientTracing_traced_witness :
    poemReqTraced.tracerData = some ⟨"svc"⟩ ∧
    (clientTracingCall constPropagator probeInner rootContext poemReqTraced).2 =
      [clientSpanFor poemReqTraced] ∧
    containsKey (injectPairs poemReqTraced.headers
      (constPropagator (contextWithSpan rootContext (clientSpanFor poemReqTraced))))
      "x-app" = true := by
  have h := clientTracing_traced constPropagator probeInner rootContext
    poemReqTraced ⟨"svc"⟩ rfl
  exact ⟨rfl, h.1, h.2.2.2 "x-app" (by decide)⟩

end Microkit
